import Mathlib

/-!
Verification of the round-effect engine of the IoT Strategy Sprint game
(`src/shared/gameLogic.ts` and `src/shared/schema.ts`), shallowly embedded
in Lean.  JavaScript numbers are modelled as rationals (`ℚ`); token counts,
round numbers and the two token-count thresholds are modelled as integers
(`ℤ`), matching the integral values they carry in the game data.
Allocation maps (`Record<string, number>`) are modelled as association
lists in insertion order, with `Object.entries` iteration corresponding to
list order and `allocations[cardId] || 0` corresponding to lookup with
default `0`.
-/

namespace IotSprint

/-- The five metric dimensions: `keyof GameMetrics` in `src/shared/schema.ts`. -/
inductive MetricKey where
  | visibility_insight
  | efficiency_throughput
  | sustainability_emissions
  | early_warning_prevention
  | complexity_risk
deriving DecidableEq, Repr

/-- `GameMetrics` from `src/shared/schema.ts`: a record of five numeric dimensions. -/
structure GameMetrics where
  visibility_insight : ℚ
  efficiency_throughput : ℚ
  sustainability_emissions : ℚ
  early_warning_prevention : ℚ
  complexity_risk : ℚ
deriving DecidableEq, Repr

/-- Reading `metrics[key]` for a `keyof GameMetrics` key. -/
def getMetric (m : GameMetrics) : MetricKey → ℚ
  | .visibility_insight => m.visibility_insight
  | .efficiency_throughput => m.efficiency_throughput
  | .sustainability_emissions => m.sustainability_emissions
  | .early_warning_prevention => m.early_warning_prevention
  | .complexity_risk => m.complexity_risk

/-- Writing `metrics[key] = v` for a `keyof GameMetrics` key. -/
def setMetric (m : GameMetrics) (k : MetricKey) (v : ℚ) : GameMetrics :=
  match k with
  | .visibility_insight => { m with visibility_insight := v }
  | .efficiency_throughput => { m with efficiency_throughput := v }
  | .sustainability_emissions => { m with sustainability_emissions := v }
  | .early_warning_prevention => { m with early_warning_prevention := v }
  | .complexity_risk => { m with complexity_risk := v }

/-- `metrics[key] += v`, the in-place accumulation pattern of the source. -/
def addMetric (m : GameMetrics) (k : MetricKey) (v : ℚ) : GameMetrics :=
  setMetric m k (getMetric m k + v)

/-- `PerTokenEffects` from `src/shared/schema.ts` (same shape as `GameMetrics`). -/
structure PerTokenEffects where
  visibility_insight : ℚ
  efficiency_throughput : ℚ
  sustainability_emissions : ℚ
  early_warning_prevention : ℚ
  complexity_risk : ℚ
deriving DecidableEq, Repr

/-- Reading one dimension of a per-token effect vector. -/
def getEffect (e : PerTokenEffects) : MetricKey → ℚ
  | .visibility_insight => e.visibility_insight
  | .efficiency_throughput => e.efficiency_throughput
  | .sustainability_emissions => e.sustainability_emissions
  | .early_warning_prevention => e.early_warning_prevention
  | .complexity_risk => e.complexity_risk

/-- `CardConfig` from `src/shared/schema.ts`.  Only the fields read by the
engine functions are modelled; the presentational fields (`roundsAvailable`,
`unlockCondition`, `category`, `companyName`, `feedbackKey`,
`iotProcessStages`, `copyKeys`) are never consulted by
`applyAllocationEffects`, `applySynergyBonuses`, `applyDisasterPenalties` or
`calculateRoundEffects` and are omitted. -/
structure CardConfig where
  id : String
  perTokenEffects : PerTokenEffects
deriving DecidableEq, Repr

/-- An allocation map `Record<string, number>` as an association list
(cardId, token count) in insertion order. -/
abbrev Alloc : Type := List (String × ℤ)

/-- `allocations[cardId] || 0`: the stored count of the first entry for the
card, `0` when the card is absent (and `0 || 0 = 0` when it is stored as 0). -/
def allocLookup (a : Alloc) (c : String) : ℤ :=
  match List.find? (fun p => p.1 == c) a with
  | some p => p.2
  | none => 0

/-- `Object.values(allocations).reduce((sum, t) => sum + t, 0)`. -/
def totalTokens (a : Alloc) : ℤ :=
  List.foldl (fun s p => s + p.2) 0 a

/-- `TokenMechanics` from `src/shared/gameLogic.ts`.  The two thresholds are
token-count bounds and are modelled as integers (all difficulty presets use
integer values); the multiplier and per-token penalty are rationals. -/
structure TokenMechanics where
  diminishingReturnsThreshold : ℤ
  diminishingReturnsMultiplier : ℚ
  iotSprawlThreshold : ℤ
  iotSprawlPenaltyPerToken : ℚ
deriving DecidableEq, Repr

/-- `clampMetrics` from `src/shared/gameLogic.ts`:
`Math.max(0, Math.min(100, x))` on every dimension. -/
def clampMetrics (m : GameMetrics) : GameMetrics where
  visibility_insight := max 0 (min 100 m.visibility_insight)
  efficiency_throughput := max 0 (min 100 m.efficiency_throughput)
  sustainability_emissions := max 0 (min 100 m.sustainability_emissions)
  early_warning_prevention := max 0 (min 100 m.early_warning_prevention)
  complexity_risk := max 0 (min 100 m.complexity_risk)

/-- The multiplier of token index `i` (0-indexed):
`i >= tm.diminishingReturnsThreshold ? tm.diminishingReturnsMultiplier : 1`. -/
def tokenMultiplier (tm : TokenMechanics) (i : ℕ) : ℚ :=
  if tm.diminishingReturnsThreshold ≤ (i : ℤ) then tm.diminishingReturnsMultiplier else 1

/-- One iteration of the per-token loop body: add
`card.perTokenEffects[dim] * multiplier` to every dimension. -/
def addCardEffects (m : GameMetrics) (e : PerTokenEffects) (mult : ℚ) : GameMetrics where
  visibility_insight := m.visibility_insight + e.visibility_insight * mult
  efficiency_throughput := m.efficiency_throughput + e.efficiency_throughput * mult
  sustainability_emissions := m.sustainability_emissions + e.sustainability_emissions * mult
  early_warning_prevention := m.early_warning_prevention + e.early_warning_prevention * mult
  complexity_risk := m.complexity_risk + e.complexity_risk * mult

/-- `for (let i = 0; i < tokens; i++) { ... }` of `applyAllocationEffects`:
the loop body runs for `i = 0 .. tokens-1`, i.e. `tokens.toNat` times
(zero times for a non-positive count). -/
def cardTokenLoop (m : GameMetrics) (card : CardConfig) (tm : TokenMechanics) (tokens : ℤ) :
    GameMetrics :=
  List.foldl (fun acc i => addCardEffects acc card.perTokenEffects (tokenMultiplier tm i))
    m (List.range tokens.toNat)

/-- The body of the `Object.entries(allocations).forEach` loop of
`applyAllocationEffects`: entries with a zero count are skipped
(`if (tokens === 0) return`), unknown card ids are skipped
(`if (!card) return`), otherwise the per-token loop runs. -/
def allocStep (cards : List CardConfig) (tm : TokenMechanics) (acc : GameMetrics)
    (p : String × ℤ) : GameMetrics :=
  if p.2 = 0 then acc
  else
    match List.find? (fun c => c.id == p.1) cards with
    | none => acc
    | some card => cardTokenLoop acc card tm p.2

/-- The `Object.entries(allocations).forEach` loop of `applyAllocationEffects`. -/
def applyTokenLoops (base : GameMetrics) (a : Alloc) (cards : List CardConfig)
    (tm : TokenMechanics) : GameMetrics :=
  List.foldl (allocStep cards tm) base a

/-- `applyAllocationEffects` from `src/shared/gameLogic.ts`: per-token effects
for every allocation entry, then the IoT-sprawl penalty on complexity risk
when the total token count exceeds the sprawl threshold. -/
def applyAllocationEffects (base : GameMetrics) (a : Alloc) (cards : List CardConfig)
    (tm : TokenMechanics) : GameMetrics :=
  let updated := applyTokenLoops base a cards tm
  let total := totalTokens a
  if tm.iotSprawlThreshold < total then
    { updated with
        complexity_risk :=
          updated.complexity_risk +
            ((total - tm.iotSprawlThreshold : ℤ) : ℚ) * tm.iotSprawlPenaltyPerToken }
  else updated

/-- The sprawl surcharge as a function of the round's total token count:
`0` at or below the threshold, `(total - threshold) * perToken` above it. -/
def sprawlPenalty (tm : TokenMechanics) (total : ℤ) : ℚ :=
  if tm.iotSprawlThreshold < total then
    ((total - tm.iotSprawlThreshold : ℤ) : ℚ) * tm.iotSprawlPenaltyPerToken
  else 0

/-- `SynergyConfig` from `src/shared/gameLogic.ts`. -/
structure SynergyConfig where
  id : String
  cards : List String
  nameKey : String
  descriptionKey : String
  bonusEffect : MetricKey
  bonusAmount : ℚ
deriving DecidableEq, Repr

/-- `ActiveSynergy` from `src/shared/gameLogic.ts`. -/
structure ActiveSynergy where
  id : String
  nameKey : String
  bonusEffect : MetricKey
  bonusAmount : ℚ
  participatingCards : List String
  scaledBonus : ℚ
deriving DecidableEq, Repr

/-- `Math.min(...xs)` over a list of integer token counts.  The engine only
applies it to the (nonempty) card list of a synergy rule; on an empty list
JavaScript would yield `Infinity`, which has no rational counterpart, so the
model returns `0` there and the theorems about the bonus value assume a
nonempty card list. -/
def jsMathMin : List ℤ → ℤ
  | [] => 0
  | x :: xs => List.foldl min x xs

/-- One iteration of the `synergies.forEach` body of `applySynergyBonuses`. -/
def synergyStep (a : Alloc) (st : GameMetrics × List ActiveSynergy) (s : SynergyConfig) :
    GameMetrics × List ActiveSynergy :=
  let participating := List.filter (fun cardId => 1 ≤ allocLookup a cardId) s.cards
  if participating.length = s.cards.length then
    let minTokens := jsMathMin (List.map (fun cardId => allocLookup a cardId) s.cards)
    let scaledBonus := s.bonusAmount * (minTokens : ℚ)
    (addMetric st.1 s.bonusEffect scaledBonus,
      st.2 ++ [{ id := s.id, nameKey := s.nameKey, bonusEffect := s.bonusEffect,
                 bonusAmount := s.bonusAmount, participatingCards := participating,
                 scaledBonus := scaledBonus }])
  else st

/-- `applySynergyBonuses` from `src/shared/gameLogic.ts`. -/
def applySynergyBonuses (base : GameMetrics) (a : Alloc) (synergies : List SynergyConfig) :
    GameMetrics × List ActiveSynergy :=
  List.foldl (synergyStep a) (base, []) synergies

/-- `Partial<GameMetrics>`: a penalty vector with an optional delta per
dimension (`undefined` is `none`). -/
structure PartialMetrics where
  visibility_insight : Option ℚ := none
  efficiency_throughput : Option ℚ := none
  sustainability_emissions : Option ℚ := none
  early_warning_prevention : Option ℚ := none
  complexity_risk : Option ℚ := none
deriving DecidableEq, Repr

/-- Adding one optional penalty entry (scaled) to one dimension:
`if (penalty !== undefined) penalizedMetrics[metric] += penalty * penaltyScale`. -/
def addOptPenalty (x : ℚ) (p : Option ℚ) (scale : ℚ) : ℚ :=
  match p with
  | some v => x + v * scale
  | none => x

/-- The `Object.entries(disasterConfig.penalties).forEach` loop: every defined
entry of the penalty vector is added to its dimension, scaled by `penaltyScale`. -/
def applyPenaltyVector (m : GameMetrics) (p : PartialMetrics) (scale : ℚ) : GameMetrics where
  visibility_insight := addOptPenalty m.visibility_insight p.visibility_insight scale
  efficiency_throughput := addOptPenalty m.efficiency_throughput p.efficiency_throughput scale
  sustainability_emissions :=
    addOptPenalty m.sustainability_emissions p.sustainability_emissions scale
  early_warning_prevention :=
    addOptPenalty m.early_warning_prevention p.early_warning_prevention scale
  complexity_risk := addOptPenalty m.complexity_risk p.complexity_risk scale

/-- `DisasterConfig` from `src/shared/schema.ts`. -/
structure DisasterConfig where
  id : String
  round : ℤ
  triggerMetric : MetricKey
  threshold : ℚ
  penalties : PartialMetrics
  copyKey : String
  mitigatedBy : Option (List String) := none
deriving DecidableEq, Repr

/-- `DisasterEvent` from `src/shared/schema.ts`. -/
structure DisasterEvent where
  id : String
  round : ℤ
  triggerMetric : MetricKey
  threshold : ℚ
  penalties : PartialMetrics
  copyKey : String
  mitigatedBy : Option (List String) := none
deriving DecidableEq, Repr

/-- `disasterConfig.mitigatedBy?.some((cardId) => (allocations[cardId] || 0) > 0)`:
`false` when `mitigatedBy` is absent. -/
def isMitigated (d : DisasterConfig) (a : Alloc) : Bool :=
  match d.mitigatedBy with
  | none => false
  | some l => List.any l (fun cardId => 0 < allocLookup a cardId)

/-- The `DisasterEvent` pushed for a triggered rule (its `round` field is
`currentRound`, the other fields are copied from the rule). -/
def disasterEvent (d : DisasterConfig) (currentRound : ℤ) : DisasterEvent :=
  { id := d.id, round := currentRound, triggerMetric := d.triggerMetric,
    threshold := d.threshold, penalties := d.penalties, copyKey := d.copyKey,
    mitigatedBy := d.mitigatedBy }

/-- One iteration of the `disasters.forEach` body of `applyDisasterPenalties`.
Note that the trigger metric is read from the *running* metrics `st.1`, which
already includes the penalties of earlier-triggered rules. -/
def disasterStep (currentRound : ℤ) (a : Alloc) (scale : ℚ)
    (st : GameMetrics × List DisasterEvent) (d : DisasterConfig) :
    GameMetrics × List DisasterEvent :=
  if d.round ≠ currentRound then st
  else if d.threshold ≤ getMetric st.1 d.triggerMetric then
    if isMitigated d a then st
    else (applyPenaltyVector st.1 d.penalties scale, st.2 ++ [disasterEvent d currentRound])
  else st

/-- `applyDisasterPenalties` from `src/shared/gameLogic.ts` (with the default
`penaltyScale = 1` made explicit at call sites). -/
def applyDisasterPenalties (base : GameMetrics) (currentRound : ℤ) (a : Alloc)
    (disasters : List DisasterConfig) (scale : ℚ) : GameMetrics × List DisasterEvent :=
  List.foldl (disasterStep currentRound a scale) (base, []) disasters

/-- The `feedbackThresholds` field of `GameConfig` from `src/shared/schema.ts`. -/
structure FeedbackThresholds where
  highVisibilityDelta : ℚ
  highEfficiencyDelta : ℚ
  highSustainabilityDelta : ℚ
  highEarlyWarningDelta : ℚ
  highComplexityDelta : ℚ
  criticalComplexityAbsolute : ℚ
  lowEarlyWarningDelta : ℚ
  balancedGrowthMinDelta : ℚ
  balancedGrowthMaxComplexity : ℚ
deriving DecidableEq, Repr

/-- The `unlockConditions` field of `GameConfig` from `src/shared/schema.ts`. -/
structure UnlockConditions where
  complexityHighThreshold : ℚ
deriving DecidableEq, Repr

/-- `GameConfig` from `src/shared/schema.ts`. -/
structure GameConfig where
  feedbackThresholds : FeedbackThresholds
  tokenMechanics : TokenMechanics
  unlockConditions : UnlockConditions
  disasters : List DisasterConfig
deriving DecidableEq, Repr

/-- The result record of `calculateRoundEffects`. -/
structure RoundEffects where
  metricsAfter : GameMetrics
  activeSynergies : List ActiveSynergy
  triggeredDisasters : List DisasterEvent
deriving DecidableEq, Repr

/-- `calculateRoundEffects` from `src/shared/gameLogic.ts`: allocation
effects, then synergy bonuses, then clamp, then disaster penalties, then
clamp again. -/
def calculateRoundEffects (metricsBefore : GameMetrics) (a : Alloc)
    (cards : List CardConfig) (config : GameConfig) (synergies : List SynergyConfig)
    (currentRound : ℤ) (scale : ℚ) : RoundEffects :=
  let metrics1 := applyAllocationEffects metricsBefore a cards config.tokenMechanics
  let synergyResult := applySynergyBonuses metrics1 a synergies
  let metrics2 := clampMetrics synergyResult.1
  let disasterResult := applyDisasterPenalties metrics2 currentRound a config.disasters scale
  let metrics3 := clampMetrics disasterResult.1
  { metricsAfter := metrics3, activeSynergies := synergyResult.2,
    triggeredDisasters := disasterResult.2 }

/-- `DifficultyMode` from `src/shared/gameLogic.ts`. -/
inductive DifficultyMode where
  | easy
  | normal
  | hard
deriving DecidableEq, Repr

/-- `DifficultyConfig` from `src/shared/gameLogic.ts`. -/
structure DifficultyConfig where
  id : DifficultyMode
  nameKey : String
  descriptionKey : String
  tokensPerRound : List ℤ
  tokenMechanics : TokenMechanics
  disasterPenaltyScale : ℚ
  additionalDisasters : Option (List DisasterConfig) := none
deriving DecidableEq, Repr

/-- `DIFFICULTY_PRESETS` from `src/shared/gameLogic.ts`, as a function of the
difficulty mode. -/
def DIFFICULTY_PRESETS : DifficultyMode → DifficultyConfig
  | .easy =>
    { id := .easy, nameKey := "difficulty.easy.name",
      descriptionKey := "difficulty.easy.description",
      tokensPerRound := [12, 7, 7],
      tokenMechanics :=
        { diminishingReturnsThreshold := 4, diminishingReturnsMultiplier := 6/10,
          iotSprawlThreshold := 14, iotSprawlPenaltyPerToken := 1 },
      disasterPenaltyScale := 75/100 }
  | .normal =>
    { id := .normal, nameKey := "difficulty.normal.name",
      descriptionKey := "difficulty.normal.description",
      tokensPerRound := [10, 5, 5],
      tokenMechanics :=
        { diminishingReturnsThreshold := 3, diminishingReturnsMultiplier := 5/10,
          iotSprawlThreshold := 12, iotSprawlPenaltyPerToken := 2 },
      disasterPenaltyScale := 1 }
  | .hard =>
    { id := .hard, nameKey := "difficulty.hard.name",
      descriptionKey := "difficulty.hard.description",
      tokensPerRound := [8, 4, 4],
      tokenMechanics :=
        { diminishingReturnsThreshold := 2, diminishingReturnsMultiplier := 4/10,
          iotSprawlThreshold := 10, iotSprawlPenaltyPerToken := 3 },
      disasterPenaltyScale := 125/100,
      additionalDisasters := some
        [{ id := "supply_chain_disruption", round := 2,
           triggerMetric := .visibility_insight, threshold := 35,
           penalties := { efficiency_throughput := some (-10),
                          early_warning_prevention := some (-5) },
           copyKey := "disasters.supplyChainDisruption",
           mitigatedBy := some ["warehouseFlow", "digitalTwin"] },
         { id := "energy_crisis", round := 2,
           triggerMetric := .sustainability_emissions, threshold := 35,
           penalties := { sustainability_emissions := some (-15),
                          efficiency_throughput := some (-5) },
           copyKey := "disasters.energyCrisis",
           mitigatedBy := some ["energyMonitoring", "smartBuilding"] }] }

/-- `getConfigForDifficulty` from `src/shared/gameLogic.ts`: the preset's
token mechanics replace the base config's, the preset's additional disasters
(when present) are appended to the base disaster list, everything else is
kept from the base config. -/
def getConfigForDifficulty (baseConfig : GameConfig) (difficulty : DifficultyMode) :
    GameConfig :=
  let preset := DIFFICULTY_PRESETS difficulty
  let disasters :=
    match preset.additionalDisasters with
    | some extra => baseConfig.disasters ++ extra
    | none => baseConfig.disasters
  { baseConfig with tokenMechanics := preset.tokenMechanics, disasters := disasters }

/-- `getTokensPerRound` from `src/shared/gameLogic.ts`. -/
def getTokensPerRound (difficulty : DifficultyMode) : List ℤ :=
  (DIFFICULTY_PRESETS difficulty).tokensPerRound

/-- `getDisasterPenaltyScale` from `src/shared/gameLogic.ts`. -/
def getDisasterPenaltyScale (difficulty : DifficultyMode) : ℚ :=
  (DIFFICULTY_PRESETS difficulty).disasterPenaltyScale

/-! ### Basic lemmas about the metric record -/

theorem getMetric_addCardEffects (m : GameMetrics) (e : PerTokenEffects) (mult : ℚ)
    (k : MetricKey) :
    getMetric (addCardEffects m e mult) k = getMetric m k + getEffect e k * mult := by
  cases k <;> rfl

theorem getMetric_addMetric (m : GameMetrics) (k j : MetricKey) (v : ℚ) :
    getMetric (addMetric m k v) j =
      if j = k then getMetric m j + v else getMetric m j := by
  cases k <;> cases j <;> simp [addMetric, setMetric, getMetric]

/-! ### The per-token loop -/

theorem getMetric_cardTokenLoop (card : CardConfig) (tm : TokenMechanics) (n : ℕ)
    (m : GameMetrics) (k : MetricKey) :
    getMetric (cardTokenLoop m card tm (n : ℤ)) k =
      getMetric m k +
        (((List.range n).map (tokenMultiplier tm)).sum) * getEffect card.perTokenEffects k := by
  unfold cardTokenLoop
  rw [Int.toNat_natCast]
  induction n generalizing m with
  | zero => simp
  | succ n ih =>
    rw [List.range_succ, List.foldl_append, List.map_append, List.sum_append]
    simp only [List.foldl_cons, List.foldl_nil, List.map_cons, List.map_nil, List.sum_cons,
      List.sum_nil]
    rw [getMetric_addCardEffects, ih]
    ring

/-- The sum of the per-token multipliers of `n` tokens under an integral
diminishing-returns threshold `t`: the first `min n t` tokens count with
multiplier `1`, the remaining `n - t` with the diminishing multiplier. -/
theorem tokenMultiplier_sum (tm : TokenMechanics) (t : ℕ)
    (ht : tm.diminishingReturnsThreshold = (t : ℤ)) (n : ℕ) :
    ((List.range n).map (tokenMultiplier tm)).sum =
      ((min n t : ℕ) : ℚ) + ((n - t : ℕ) : ℚ) * tm.diminishingReturnsMultiplier := by
  induction n with
  | zero => simp
  | succ n ih =>
    rw [List.range_succ, List.map_append, List.sum_append]
    simp only [List.map_cons, List.map_nil, List.sum_cons, List.sum_nil, add_zero]
    rw [ih]
    unfold tokenMultiplier
    rw [ht]
    by_cases hnt : t ≤ n
    · have h1 : (t : ℤ) ≤ (n : ℤ) := by exact_mod_cast hnt
      have h2 : min (n + 1) t = min n t := by omega
      have h3 : n + 1 - t = (n - t) + 1 := by omega
      rw [if_pos h1, h2, h3]
      push_cast
      ring
    · have h1 : ¬ (t : ℤ) ≤ (n : ℤ) := by exact_mod_cast hnt
      have h2 : min (n + 1) t = min n t + 1 := by omega
      have h3 : n + 1 - t = 0 := by omega
      have h4 : n - t = 0 := by omega
      rw [if_neg h1, h2, h3, h4]
      push_cast
      ring

/-! ### Total token count -/

theorem totalTokens_cons (p : String × ℤ) (a : Alloc) :
    totalTokens (p :: a) = p.2 + totalTokens a := by
  show List.foldl (fun s q => s + q.2) (0 + p.2) a = p.2 + totalTokens a
  have h : ∀ (l : List (String × ℤ)) (x : ℤ),
      List.foldl (fun s q => s + q.2) x l = x + List.foldl (fun s q => s + q.2) 0 l := by
    intro l
    induction l with
    | nil => intro x; simp
    | cons q l ih =>
      intro x
      simp only [List.foldl_cons]
      rw [ih (x + q.2), ih (0 + q.2)]
      ring
  rw [h a (0 + p.2)]
  unfold totalTokens
  ring

theorem totalTokens_append (a b : Alloc) :
    totalTokens (a ++ b) = totalTokens a + totalTokens b := by
  induction a with
  | nil => simp [totalTokens]
  | cons p a ih =>
    rw [List.cons_append, totalTokens_cons, totalTokens_cons, ih]
    ring

/-! ### The sprawl surcharge -/

theorem getMetric_applyAllocationEffects (m : GameMetrics) (a : Alloc)
    (cards : List CardConfig) (tm : TokenMechanics) (k : MetricKey) :
    getMetric (applyAllocationEffects m a cards tm) k =
      getMetric (applyTokenLoops m a cards tm) k +
        (if k = MetricKey.complexity_risk then sprawlPenalty tm (totalTokens a) else 0) := by
  unfold applyAllocationEffects sprawlPenalty
  by_cases h : tm.iotSprawlThreshold < totalTokens a
  · rw [if_pos h]
    cases k <;> simp [getMetric, if_pos h]
  · rw [if_neg h]
    cases k <;> simp [getMetric, if_neg h]

theorem allocStep_of_nonpos (cards : List CardConfig) (tm : TokenMechanics)
    (acc : GameMetrics) (p : String × ℤ) (hp : p.2 ≤ 0) :
    allocStep cards tm acc p = acc := by
  unfold allocStep
  by_cases h : p.2 = 0
  · rw [if_pos h]
  · rw [if_neg h]
    cases List.find? (fun c => c.id == p.1) cards with
    | none => rfl
    | some card =>
      unfold cardTokenLoop
      rw [Int.toNat_of_nonpos hp]
      rfl

theorem applyTokenLoops_singleton (m : GameMetrics) (cardId : String) (tok : ℤ)
    (cards : List CardConfig) (card : CardConfig) (tm : TokenMechanics)
    (hfind : List.find? (fun c => c.id == cardId) cards = some card) :
    applyTokenLoops m [(cardId, tok)] cards tm = cardTokenLoop m card tm tok := by
  unfold applyTokenLoops
  simp only [List.foldl_cons, List.foldl_nil]
  unfold allocStep
  by_cases h : tok = 0
  · rw [if_pos h, h]
    unfold cardTokenLoop
    simp
  · rw [if_neg h]
    simp only []
    rw [hfind]

theorem applyTokenLoops_zero (m : GameMetrics) (a : Alloc) (cards : List CardConfig)
    (tm : TokenMechanics) (ha : ∀ p ∈ a, p.2 = 0) :
    applyTokenLoops m a cards tm = m := by
  induction a with
  | nil => rfl
  | cons p a ih =>
    have hp : p.2 = 0 := ha p (List.mem_cons_self p a)
    unfold applyTokenLoops
    rw [List.foldl_cons, allocStep_of_nonpos cards tm m p (le_of_eq hp)]
    exact ih (fun q hq => ha q (List.mem_cons_of_mem p hq))

theorem totalTokens_eq_zero (a : Alloc) (ha : ∀ p ∈ a, p.2 = 0) : totalTokens a = 0 := by
  induction a with
  | nil => rfl
  | cons p a ih =>
    rw [totalTokens_cons, ha p (List.mem_cons_self p a),
      ih (fun q hq => ha q (List.mem_cons_of_mem p hq))]
    ring

/-- C6: the five dimensions change by `min(k,t)*perToken + max(0,k-t)*perToken*mult`
for a single card funded with `k` tokens under an integral diminishing-returns
threshold `t`, plus the sprawl surcharge on complexity risk when the `k` tokens
exceed the sprawl threshold. -/
theorem c6_diminishing_schedule (m : GameMetrics) (cards : List CardConfig)
    (card : CardConfig) (cardId : String) (tm : TokenMechanics) (k t : ℕ)
    (hfind : List.find? (fun c => c.id == cardId) cards = some card)
    (ht : tm.diminishingReturnsThreshold = (t : ℤ)) :
    ∀ key : MetricKey,
      getMetric (applyAllocationEffects m [(cardId, (k : ℤ))] cards tm) key =
        getMetric m key + ((min k t : ℕ) : ℚ) * getEffect card.perTokenEffects key
          + ((k - t : ℕ) : ℚ) * getEffect card.perTokenEffects key
              * tm.diminishingReturnsMultiplier
          + (if key = MetricKey.complexity_risk ∧ tm.iotSprawlThreshold < (k : ℤ) then
               (((k : ℤ) - tm.iotSprawlThreshold : ℤ) : ℚ) * tm.iotSprawlPenaltyPerToken
             else 0) := by
  intro key
  rw [getMetric_applyAllocationEffects,
    applyTokenLoops_singleton m cardId (k : ℤ) cards card tm hfind,
    getMetric_cardTokenLoop, tokenMultiplier_sum tm t ht k]
  have htot : totalTokens [(cardId, (k : ℤ))] = (k : ℤ) := by
    rw [totalTokens_cons]
    rfl
  rw [htot]
  unfold sprawlPenalty
  by_cases hkey : key = MetricKey.complexity_risk
  · by_cases hk : tm.iotSprawlThreshold < (k : ℤ)
    · rw [if_pos hkey, if_pos hk, if_pos ⟨hkey, hk⟩]
      ring
    · rw [if_pos hkey, if_neg hk, if_neg (fun h => hk h.2)]
      ring
  · rw [if_neg hkey, if_neg (fun h => hkey h.1)]
    ring

/-- C6 witness: three tokens on a card with effect `10` per token, threshold 2,
multiplier `1/2`: `25 + 10 + 10 + 5 = 50` on the funded dimension. -/
theorem c6_diminishing_schedule_witness :
    List.find? (fun c => c.id == "card1")
        [({ id := "card1",
            perTokenEffects :=
              { visibility_insight := 10, efficiency_throughput := 0,
                sustainability_emissions := 0, early_warning_prevention := 0,
                complexity_risk := 0 } } : CardConfig)] =
      some { id := "card1",
             perTokenEffects :=
               { visibility_insight := 10, efficiency_throughput := 0,
                 sustainability_emissions := 0, early_warning_prevention := 0,
                 complexity_risk := 0 } } ∧
    ({ diminishingReturnsThreshold := 2, diminishingReturnsMultiplier := 1/2,
       iotSprawlThreshold := 12, iotSprawlPenaltyPerToken := 2 } :
        TokenMechanics).diminishingReturnsThreshold = ((2 : ℕ) : ℤ) ∧
    ∀ key : MetricKey,
      getMetric
          (applyAllocationEffects
            { visibility_insight := 25, efficiency_throughput := 30,
              sustainability_emissions := 30, early_warning_prevention := 20,
              complexity_risk := 20 }
            [("card1", ((3 : ℕ) : ℤ))]
            [{ id := "card1",
               perTokenEffects :=
                 { visibility_insight := 10, efficiency_throughput := 0,
                   sustainability_emissions := 0, early_warning_prevention := 0,
                   complexity_risk := 0 } }]
            { diminishingReturnsThreshold := 2, diminishingReturnsMultiplier := 1/2,
              iotSprawlThreshold := 12, iotSprawlPenaltyPerToken := 2 }) key =
        getMetric
            { visibility_insight := 25, efficiency_throughput := 30,
              sustainability_emissions := 30, early_warning_prevention := 20,
              complexity_risk := 20 } key
          + ((min 3 2 : ℕ) : ℚ) *
              getEffect
                { visibility_insight := 10, efficiency_throughput := 0,
                  sustainability_emissions := 0, early_warning_prevention := 0,
                  complexity_risk := 0 } key
          + ((3 - 2 : ℕ) : ℚ) *
              getEffect
                { visibility_insight := 10, efficiency_throughput := 0,
                  sustainability_emissions := 0, early_warning_prevention := 0,
                  complexity_risk := 0 } key * (1/2)
          + (if key = MetricKey.complexity_risk ∧ (12 : ℤ) < ((3 : ℕ) : ℤ) then
               ((((3 : ℕ) : ℤ) - 12 : ℤ) : ℚ) * 2
             else 0) :=
  ⟨by simp, by norm_num,
    c6_diminishing_schedule
      { visibility_insight := 25, efficiency_throughput := 30,
        sustainability_emissions := 30, early_warning_prevention := 20,
        complexity_risk := 20 }
      [{ id := "card1",
         perTokenEffects :=
           { visibility_insight := 10, efficiency_throughput := 0,
             sustainability_emissions := 0, early_warning_prevention := 0,
             complexity_risk := 0 } }]
      { id := "card1",
        perTokenEffects :=
          { visibility_insight := 10, efficiency_throughput := 0,
            sustainability_emissions := 0, early_warning_prevention := 0,
            complexity_risk := 0 } }
      "card1"
      { diminishingReturnsThreshold := 2, diminishingReturnsMultiplier := 1/2,
        iotSprawlThreshold := 12, iotSprawlPenaltyPerToken := 2 }
      3 2 (by simp) (by norm_num)⟩

/-- C7: the sprawl surcharge is added to complexity risk only, equals
`(total - threshold) * perToken` exactly when the total token count exceeds
the threshold, vanishes at or below the threshold, and grows by exactly one
`perToken` for each extra token beyond the threshold. -/
theorem c7_sprawl_penalty (m : GameMetrics) (a : Alloc) (cards : List CardConfig)
    (tm : TokenMechanics) :
    (∀ k : MetricKey, k ≠ MetricKey.complexity_risk →
        getMetric (applyAllocationEffects m a cards tm) k =
          getMetric (applyTokenLoops m a cards tm) k)
    ∧ getMetric (applyAllocationEffects m a cards tm) MetricKey.complexity_risk =
        getMetric (applyTokenLoops m a cards tm) MetricKey.complexity_risk +
          sprawlPenalty tm (totalTokens a)
    ∧ (∀ n : ℤ, n ≤ tm.iotSprawlThreshold → sprawlPenalty tm n = 0)
    ∧ (∀ n : ℤ, tm.iotSprawlThreshold ≤ n →
        sprawlPenalty tm (n + 1) = sprawlPenalty tm n + tm.iotSprawlPenaltyPerToken) := by
  refine ⟨?_, ?_, ?_, ?_⟩
  · intro k hk
    rw [getMetric_applyAllocationEffects, if_neg hk, add_zero]
  · rw [getMetric_applyAllocationEffects, if_pos rfl]
  · intro n hn
    unfold sprawlPenalty
    rw [if_neg (by omega)]
  · intro n hn
    unfold sprawlPenalty
    by_cases h : tm.iotSprawlThreshold < n
    · rw [if_pos (by omega), if_pos h]
      have hcast : ((n + 1 - tm.iotSprawlThreshold : ℤ) : ℚ) =
          ((n - tm.iotSprawlThreshold : ℤ) : ℚ) + 1 := by
        push_cast
        ring
      rw [hcast]
      ring
    · have hn' : n = tm.iotSprawlThreshold := by omega
      rw [if_pos (by omega), if_neg h, hn']
      have hcast : ((tm.iotSprawlThreshold + 1 - tm.iotSprawlThreshold : ℤ) : ℚ) = 1 := by
        push_cast
        ring
      rw [hcast]
      ring

/-- C7 witness: 15 tokens against a sprawl threshold of 12 at 2 per excess
token (the repository's own unit-test scenario). -/
theorem c7_sprawl_penalty_witness :
    ((MetricKey.visibility_insight : MetricKey) ≠ MetricKey.complexity_risk →
      getMetric
          (applyAllocationEffects
            { visibility_insight := 25, efficiency_throughput := 30,
              sustainability_emissions := 30, early_warning_prevention := 20,
              complexity_risk := 20 }
            [("card1", 15)] []
            { diminishingReturnsThreshold := 10, diminishingReturnsMultiplier := 1/2,
              iotSprawlThreshold := 12, iotSprawlPenaltyPerToken := 2 })
          MetricKey.visibility_insight =
        getMetric
          (applyTokenLoops
            { visibility_insight := 25, efficiency_throughput := 30,
              sustainability_emissions := 30, early_warning_prevention := 20,
              complexity_risk := 20 }
            [("card1", 15)] []
            { diminishingReturnsThreshold := 10, diminishingReturnsMultiplier := 1/2,
              iotSprawlThreshold := 12, iotSprawlPenaltyPerToken := 2 })
          MetricKey.visibility_insight)
    ∧ ((12 : ℤ) ≤ 15 →
        sprawlPenalty
            { diminishingReturnsThreshold := 10, diminishingReturnsMultiplier := 1/2,
              iotSprawlThreshold := 12, iotSprawlPenaltyPerToken := 2 } (15 + 1) =
          sprawlPenalty
              { diminishingReturnsThreshold := 10, diminishingReturnsMultiplier := 1/2,
                iotSprawlThreshold := 12, iotSprawlPenaltyPerToken := 2 } 15 + 2) :=
  ⟨fun h =>
    ((c7_sprawl_penalty
      { visibility_insight := 25, efficiency_throughput := 30,
        sustainability_emissions := 30, early_warning_prevention := 20,
        complexity_risk := 20 }
      [("card1", 15)] []
      { diminishingReturnsThreshold := 10, diminishingReturnsMultiplier := 1/2,
        iotSprawlThreshold := 12, iotSprawlPenaltyPerToken := 2 }).1
      MetricKey.visibility_insight h),
   fun h =>
    ((c7_sprawl_penalty
      { visibility_insight := 25, efficiency_throughput := 30,
        sustainability_emissions := 30, early_warning_prevention := 20,
        complexity_risk := 20 }
      [("card1", 15)] []
      { diminishingReturnsThreshold := 10, diminishingReturnsMultiplier := 1/2,
        iotSprawlThreshold := 12, iotSprawlPenaltyPerToken := 2 }).2.2.2 15 h)⟩

/-- The game's `INITIAL_METRICS` from `src/shared/schema.ts`, used as a
concrete input in counterexamples and witnesses. -/
def initialMetrics : GameMetrics :=
  { visibility_insight := 25, efficiency_throughput := 30, sustainability_emissions := 30,
    early_warning_prevention := 20, complexity_risk := 20 }

/-- A token-mechanics record with a negative sprawl threshold: on it the
sprawl branch of `applyAllocationEffects` fires even with no tokens spent. -/
def tmNegSprawl : TokenMechanics :=
  { diminishingReturnsThreshold := 3, diminishingReturnsMultiplier := 1/2,
    iotSprawlThreshold := -1, iotSprawlPenaltyPerToken := 5 }

/-- C8 counterexample: with an empty allocation map but a token-mechanics
record whose `iotSprawlThreshold` is `-1`, `applyAllocationEffects` adds
`(0 - (-1)) * 5 = 5` to complexity risk, so the zero-allocation identity
fails for this token-mechanics record. -/
theorem c8_zero_allocation_counterexample :
    applyAllocationEffects initialMetrics [] [] tmNegSprawl ≠ initialMetrics := by
  intro h
  have hc : (applyAllocationEffects initialMetrics [] [] tmNegSprawl).complexity_risk = 25 := by
    simp [applyAllocationEffects, applyTokenLoops, totalTokens, initialMetrics, tmNegSprawl]
    norm_num
  rw [h] at hc
  norm_num [initialMetrics] at hc

/-- C8 amended: when the sprawl threshold is nonnegative (as in every
difficulty preset), `applyAllocationEffects` is the identity on the metrics
for the empty allocation map and for any allocation map whose every entry
carries `0` tokens. -/
theorem c8_zero_allocation_identity (m : GameMetrics) (a : Alloc) (cards : List CardConfig)
    (tm : TokenMechanics) (hthr : 0 ≤ tm.iotSprawlThreshold) (ha : ∀ p ∈ a, p.2 = 0) :
    applyAllocationEffects m a cards tm = m := by
  unfold applyAllocationEffects
  rw [totalTokens_eq_zero a ha, applyTokenLoops_zero m a cards tm ha, if_neg (by omega)]

/-- C8 witness: the normal-difficulty token mechanics and an allocation map
with one zero entry. -/
theorem c8_zero_allocation_witness :
    (0 : ℤ) ≤ (DIFFICULTY_PRESETS DifficultyMode.normal).tokenMechanics.iotSprawlThreshold ∧
    (∀ p ∈ ([("digitalTwin", 0)] : Alloc), p.2 = 0) ∧
    applyAllocationEffects initialMetrics [("digitalTwin", 0)] []
        (DIFFICULTY_PRESETS DifficultyMode.normal).tokenMechanics = initialMetrics :=
  ⟨by norm_num [DIFFICULTY_PRESETS], by simp,
    c8_zero_allocation_identity initialMetrics [("digitalTwin", 0)] []
      (DIFFICULTY_PRESETS DifficultyMode.normal).tokenMechanics
      (by norm_num [DIFFICULTY_PRESETS]) (by simp)⟩

/-- C10: an allocation entry with a negative token count contributes no
per-token effects (the loop body runs zero times), yet its value still enters
`totalTokensUsed`, so it lowers the total that the sprawl test and the sprawl
surcharge see. -/
theorem c10_negative_allocation (m : GameMetrics) (cards : List CardConfig)
    (tm : TokenMechanics) (pre post : Alloc) (x : String) (v : ℤ) (hv : v < 0) :
    applyTokenLoops m (pre ++ (x, v) :: post) cards tm =
      applyTokenLoops m (pre ++ post) cards tm
    ∧ totalTokens (pre ++ (x, v) :: post) = totalTokens (pre ++ post) + v
    ∧ getMetric (applyAllocationEffects m (pre ++ (x, v) :: post) cards tm)
          MetricKey.complexity_risk =
        getMetric (applyTokenLoops m (pre ++ post) cards tm) MetricKey.complexity_risk +
          sprawlPenalty tm (totalTokens (pre ++ post) + v) := by
  have hloop : applyTokenLoops m (pre ++ (x, v) :: post) cards tm =
      applyTokenLoops m (pre ++ post) cards tm := by
    unfold applyTokenLoops
    rw [List.foldl_append, List.foldl_append, List.foldl_cons,
      allocStep_of_nonpos cards tm _ (x, v) (le_of_lt hv)]
  have htot : totalTokens (pre ++ (x, v) :: post) = totalTokens (pre ++ post) + v := by
    rw [totalTokens_append, totalTokens_cons, totalTokens_append]
    ring
  refine ⟨hloop, htot, ?_⟩
  rw [getMetric_applyAllocationEffects, if_pos rfl, hloop, htot]

/-- C10 witness: 13 tokens on one card with a sprawl threshold of 12 would
incur a surcharge; a ghost entry of `-1` tokens brings the total back to 12
and cancels it. -/
theorem c10_negative_allocation_witness :
    (-1 : ℤ) < 0 ∧
    (applyTokenLoops initialMetrics ([("card1", 13)] ++ ("ghost", -1) :: []) []
        tmNegSprawl =
      applyTokenLoops initialMetrics ([("card1", 13)] ++ []) [] tmNegSprawl
    ∧ totalTokens ([("card1", 13)] ++ ("ghost", -1) :: []) =
        totalTokens ([("card1", 13)] ++ []) + (-1)
    ∧ getMetric
          (applyAllocationEffects initialMetrics ([("card1", 13)] ++ ("ghost", -1) :: []) []
            tmNegSprawl) MetricKey.complexity_risk =
        getMetric (applyTokenLoops initialMetrics ([("card1", 13)] ++ []) [] tmNegSprawl)
            MetricKey.complexity_risk +
          sprawlPenalty tmNegSprawl (totalTokens ([("card1", 13)] ++ []) + (-1))) :=
  ⟨by norm_num,
    c10_negative_allocation initialMetrics [] tmNegSprawl [("card1", 13)] [] "ghost" (-1)
      (by norm_num)⟩

/-! ### Clamping -/

theorem getMetric_clampMetrics (m : GameMetrics) (k : MetricKey) :
    getMetric (clampMetrics m) k = max 0 (min 100 (getMetric m k)) := by
  cases k <;> rfl

theorem clamp_bounds (x : ℚ) : 0 ≤ max 0 (min 100 x) ∧ max 0 (min 100 x) ≤ 100 :=
  ⟨le_max_left 0 (min 100 x), max_le (by norm_num) (min_le_left 100 x)⟩

/-- C2: `calculateRoundEffects` is exactly the five-step pipeline — allocation
effects, then synergy bonuses on that intermediate result, then a clamp, then
disaster penalties on the clamped metrics with the same round and allocation
map, then a final clamp — and it returns the synergy step's and disaster
step's event lists unmodified. -/
theorem c2_pipeline (metricsBefore : GameMetrics) (a : Alloc) (cards : List CardConfig)
    (config : GameConfig) (synergies : List SynergyConfig) (currentRound : ℤ) (scale : ℚ) :
    calculateRoundEffects metricsBefore a cards config synergies currentRound scale =
      { metricsAfter :=
          clampMetrics
            (applyDisasterPenalties
              (clampMetrics
                (applySynergyBonuses
                  (applyAllocationEffects metricsBefore a cards config.tokenMechanics)
                  a synergies).1)
              currentRound a config.disasters scale).1,
        activeSynergies :=
          (applySynergyBonuses
            (applyAllocationEffects metricsBefore a cards config.tokenMechanics)
            a synergies).2,
        triggeredDisasters :=
          (applyDisasterPenalties
            (clampMetrics
              (applySynergyBonuses
                (applyAllocationEffects metricsBefore a cards config.tokenMechanics)
                a synergies).1)
            currentRound a config.disasters scale).2 } :=
  rfl

/-- C3: every dimension of the metrics returned by `calculateRoundEffects`
lies in `[0, 100]`, for arbitrary inputs. -/
theorem c3_metrics_in_range (metricsBefore : GameMetrics) (a : Alloc)
    (cards : List CardConfig) (config : GameConfig) (synergies : List SynergyConfig)
    (currentRound : ℤ) (scale : ℚ) :
    ∀ k : MetricKey,
      0 ≤ getMetric
            (calculateRoundEffects metricsBefore a cards config synergies currentRound
              scale).metricsAfter k
      ∧ getMetric
            (calculateRoundEffects metricsBefore a cards config synergies currentRound
              scale).metricsAfter k ≤ 100 := by
  intro k
  have h : (calculateRoundEffects metricsBefore a cards config synergies currentRound
      scale).metricsAfter =
      clampMetrics
        (applyDisasterPenalties
          (clampMetrics
            (applySynergyBonuses
              (applyAllocationEffects metricsBefore a cards config.tokenMechanics)
              a synergies).1)
          currentRound a config.disasters scale).1 := rfl
  rw [h, getMetric_clampMetrics]
  exact clamp_bounds _

/-- C9: resolving a difficulty profile replaces the token mechanics with the
preset's, appends the preset's additional disasters (when present) to the
base config's disaster list, and leaves every other base-config field
unchanged.  The model is purely functional, so the base config value is
untouched by construction. -/
theorem c9_difficulty_composition (base : GameConfig) (d : DifficultyMode) :
    (getConfigForDifficulty base d).tokenMechanics = (DIFFICULTY_PRESETS d).tokenMechanics
    ∧ (getConfigForDifficulty base d).disasters =
        base.disasters ++ ((DIFFICULTY_PRESETS d).additionalDisasters.getD [])
    ∧ (getConfigForDifficulty base d).feedbackThresholds = base.feedbackThresholds
    ∧ (getConfigForDifficulty base d).unlockConditions = base.unlockConditions := by
  cases d <;> simp [getConfigForDifficulty, DIFFICULTY_PRESETS]

/-! ### Accumulator normalisation for the event-collecting folds -/

theorem foldl_events_acc {σ ε : Type} (step : GameMetrics × List ε → σ → GameMetrics × List ε)
    (hstep : ∀ (m : GameMetrics) (evs : List ε) (x : σ),
      step (m, evs) x = ((step (m, []) x).1, evs ++ (step (m, []) x).2)) :
    ∀ (l : List σ) (m : GameMetrics) (evs : List ε),
      List.foldl step (m, evs) l =
        ((List.foldl step (m, []) l).1, evs ++ (List.foldl step (m, []) l).2) := by
  intro l
  induction l with
  | nil => intro m evs; simp
  | cons x l ih =>
    intro m evs
    rw [List.foldl_cons, List.foldl_cons, hstep m evs x, hstep m [] x, List.nil_append]
    rw [ih (step (m, []) x).1 (evs ++ (step (m, []) x).2),
      ih (step (m, []) x).1 (step (m, []) x).2]
    rw [List.append_assoc]

theorem synergyStep_acc (a : Alloc) (m : GameMetrics) (evs : List ActiveSynergy)
    (s : SynergyConfig) :
    synergyStep a (m, evs) s =
      ((synergyStep a (m, []) s).1, evs ++ (synergyStep a (m, []) s).2) := by
  unfold synergyStep
  by_cases h :
      (List.filter (fun cardId => 1 ≤ allocLookup a cardId) s.cards).length = s.cards.length
  · rw [if_pos h, if_pos h]
    simp
  · rw [if_neg h, if_neg h]
    simp

theorem disasterStep_acc (r : ℤ) (a : Alloc) (scale : ℚ) (m : GameMetrics)
    (evs : List DisasterEvent) (d : DisasterConfig) :
    disasterStep r a scale (m, evs) d =
      ((disasterStep r a scale (m, []) d).1, evs ++ (disasterStep r a scale (m, []) d).2) := by
  unfold disasterStep
  by_cases h1 : d.round ≠ r
  · rw [if_pos h1, if_pos h1]
    simp
  · rw [if_neg h1, if_neg h1]
    by_cases h2 : d.threshold ≤ getMetric m d.triggerMetric
    · rw [if_pos h2, if_pos h2]
      by_cases h3 : isMitigated d a
      · rw [if_pos h3, if_pos h3]
        simp
      · rw [if_neg h3, if_neg h3]
        simp
    · rw [if_neg h2, if_neg h2]
      simp

/-! ### The minimum of a nonempty list -/

theorem foldl_min_le_init (b : ℤ) (l : List ℤ) : List.foldl min b l ≤ b := by
  induction l generalizing b with
  | nil => simp
  | cons z l ih =>
    rw [List.foldl_cons]
    exact le_trans (ih (min b z)) (min_le_left b z)

theorem foldl_min_mem (x : ℤ) (xs : List ℤ) : List.foldl min x xs ∈ x :: xs := by
  induction xs generalizing x with
  | nil => simp
  | cons y xs ih =>
    rw [List.foldl_cons]
    rcases List.mem_cons.mp (ih (min x y)) with h1 | h2
    · rcases min_choice x y with hc | hc
      · rw [h1, hc]
        exact List.mem_cons_self x (y :: xs)
      · rw [h1, hc]
        exact List.mem_cons_of_mem x (List.mem_cons_self y xs)
    · exact List.mem_cons_of_mem x (List.mem_cons_of_mem y h2)

theorem foldl_min_le (x : ℤ) (xs : List ℤ) (y : ℤ) (hy : y ∈ x :: xs) :
    List.foldl min x xs ≤ y := by
  induction xs generalizing x with
  | nil =>
    rcases List.mem_cons.mp hy with h1 | h2
    · rw [List.foldl_nil]
      exact le_of_eq h1.symm
    · cases h2
  | cons z xs ih =>
    rw [List.foldl_cons]
    rcases List.mem_cons.mp hy with h1 | h2
    · rw [h1]
      exact le_trans (foldl_min_le_init (min x z) xs) (min_le_left x z)
    · rcases List.mem_cons.mp h2 with h3 | h4
      · rw [h3]
        exact le_trans (foldl_min_le_init (min x z) xs) (min_le_right x z)
      · exact ih (min x z) (List.mem_cons_of_mem (min x z) h4)

/-- On a nonempty list, `jsMathMin` is a genuine minimum: it is an element of
the list and a lower bound of it. -/
theorem jsMathMin_spec (l : List ℤ) (hl : l ≠ []) :
    jsMathMin l ∈ l ∧ ∀ y ∈ l, jsMathMin l ≤ y := by
  cases l with
  | nil => exact absurd rfl hl
  | cons x xs =>
    unfold jsMathMin
    exact ⟨foldl_min_mem x xs, fun y hy => foldl_min_le x xs y hy⟩

/-! ### The synergy evaluator (C4) -/

theorem filter_length_iff_all (p : String → Bool) (l : List String) :
    (List.filter p l).length = l.length ↔ l.all p = true := by
  constructor
  · intro h
    have heq : List.filter p l = l := (List.filter_sublist l).eq_of_length h
    rw [List.all_eq_true]
    intro c hc
    have hc' : c ∈ List.filter p l := by
      rw [heq]
      exact hc
    exact List.of_mem_filter hc'
  · intro h
    have heq : List.filter p l = l := List.filter_eq_self.mpr (List.all_eq_true.mp h)
    rw [heq]

/-- The spec's activity condition for a synergy rule: every participating
card has an allocation of at least one token. -/
def specSynergyActive (a : Alloc) (s : SynergyConfig) : Bool :=
  s.cards.all (fun cardId => 1 ≤ allocLookup a cardId)

/-- The spec's scaled bonus of an active synergy rule:
`bonusAmount * minTokens` over the rule's card set. -/
def specSynergyBonus (a : Alloc) (s : SynergyConfig) : ℚ :=
  s.bonusAmount * ((jsMathMin (List.map (fun cardId => allocLookup a cardId) s.cards)) : ℚ)

/-- The fired-synergy descriptor the spec predicts for an active rule: all of
the rule's cards participate and the scaled bonus is `bonusAmount * minTokens`. -/
def specActiveSynergy (a : Alloc) (s : SynergyConfig) : ActiveSynergy :=
  { id := s.id, nameKey := s.nameKey, bonusEffect := s.bonusEffect,
    bonusAmount := s.bonusAmount, participatingCards := s.cards,
    scaledBonus := specSynergyBonus a s }

theorem applySynergyBonuses_eq (a : Alloc) (ss : List SynergyConfig) :
    ∀ m : GameMetrics,
      applySynergyBonuses m a ss =
        ((ss.filter (specSynergyActive a)).foldl
            (fun acc s => addMetric acc s.bonusEffect (specSynergyBonus a s)) m,
          (ss.filter (specSynergyActive a)).map (specActiveSynergy a)) := by
  induction ss with
  | nil => intro m; rfl
  | cons s ss ih =>
    intro m
    unfold applySynergyBonuses at ih ⊢
    rw [List.foldl_cons]
    by_cases h :
        (List.filter (fun cardId => 1 ≤ allocLookup a cardId) s.cards).length =
          s.cards.length
    · have hb : specSynergyActive a s = true := by
        unfold specSynergyActive
        exact (filter_length_iff_all (fun cardId => 1 ≤ allocLookup a cardId) s.cards).mp h
      have hfilter :
          List.filter (fun cardId => 1 ≤ allocLookup a cardId) s.cards = s.cards :=
        (List.filter_sublist s.cards).eq_of_length h
      have hstep : synergyStep a (m, []) s =
          (addMetric m s.bonusEffect (specSynergyBonus a s), [specActiveSynergy a s]) := by
        unfold synergyStep
        rw [if_pos h]
        simp only [hfilter]
        rfl
      rw [hstep,
        foldl_events_acc (synergyStep a) (synergyStep_acc a) ss
          (addMetric m s.bonusEffect (specSynergyBonus a s)) [specActiveSynergy a s],
        ih (addMetric m s.bonusEffect (specSynergyBonus a s)),
        List.filter_cons_of_pos hb, List.foldl_cons, List.map_cons]
      simp
    · have hb : specSynergyActive a s = false := by
        unfold specSynergyActive
        rcases Bool.eq_false_or_eq_true (s.cards.all fun cardId => 1 ≤ allocLookup a cardId)
          with ht | hf
        · exact absurd
            ((filter_length_iff_all (fun cardId => 1 ≤ allocLookup a cardId) s.cards).mpr ht) h
        · exact hf
      have hstep : synergyStep a (m, []) s = (m, []) := by
        unfold synergyStep
        rw [if_neg h]
      rw [hstep, ih m, List.filter_cons_of_neg (by rw [hb]; exact Bool.false_ne_true)]

/-- C4: a synergy rule is reported active iff every card in its card set has
an allocation of at least one token; each active rule contributes exactly
`bonusAmount * minTokens` to its target dimension (with all of its cards
listed as participating), inactive rules contribute nothing, and — on a
nonempty card set — `minTokens` is the true minimum allocation among the
rule's cards. -/
theorem c4_synergy_characterization (m : GameMetrics) (a : Alloc)
    (ss : List SynergyConfig) :
    ((applySynergyBonuses m a ss).2 =
        (ss.filter (specSynergyActive a)).map (specActiveSynergy a))
    ∧ ((applySynergyBonuses m a ss).1 =
        (ss.filter (specSynergyActive a)).foldl
          (fun acc s => addMetric acc s.bonusEffect (specSynergyBonus a s)) m)
    ∧ (∀ s : SynergyConfig, specSynergyActive a s = true ↔
        ∀ c ∈ s.cards, 1 ≤ allocLookup a c)
    ∧ (∀ s : SynergyConfig, s.cards ≠ [] →
        jsMathMin (List.map (fun cardId => allocLookup a cardId) s.cards) ∈
            List.map (fun cardId => allocLookup a cardId) s.cards
          ∧ ∀ c ∈ s.cards,
              jsMathMin (List.map (fun cardId => allocLookup a cardId) s.cards) ≤
                allocLookup a c) := by
  refine ⟨?_, ?_, ?_, ?_⟩
  · rw [applySynergyBonuses_eq a ss m]
  · rw [applySynergyBonuses_eq a ss m]
  · intro s
    unfold specSynergyActive
    rw [List.all_eq_true]
    constructor
    · intro h c hc
      exact of_decide_eq_true (h c hc)
    · intro h c hc
      exact decide_eq_true (h c hc)
  · intro s hs
    have hmap : List.map (fun cardId => allocLookup a cardId) s.cards ≠ [] := by
      intro hnil
      exact hs (List.map_eq_nil_iff.mp hnil)
    obtain ⟨hmem, hle⟩ := jsMathMin_spec _ hmap
    exact ⟨hmem, fun c hc => hle (allocLookup a c) (List.mem_map_of_mem _ hc)⟩

/-- A synergy rule over two cards, used as a concrete witness instance. -/
def sampleSynergy : SynergyConfig :=
  { id := "synergy1", cards := ["card1", "card2"], nameKey := "synergies.test1.name",
    descriptionKey := "synergies.test1.description",
    bonusEffect := MetricKey.visibility_insight, bonusAmount := 5 }

/-- C4 witness: the characterization instantiated at a concrete metrics value,
allocation map and synergy list. -/
theorem c4_synergy_witness :
    ((applySynergyBonuses initialMetrics [("card1", 2), ("card2", 1)] [sampleSynergy]).2 =
        (([sampleSynergy].filter (specSynergyActive [("card1", 2), ("card2", 1)])).map
          (specActiveSynergy [("card1", 2), ("card2", 1)])))
    ∧ ((applySynergyBonuses initialMetrics [("card1", 2), ("card2", 1)] [sampleSynergy]).1 =
        ([sampleSynergy].filter (specSynergyActive [("card1", 2), ("card2", 1)])).foldl
          (fun acc s =>
            addMetric acc s.bonusEffect (specSynergyBonus [("card1", 2), ("card2", 1)] s))
          initialMetrics)
    ∧ (∀ s : SynergyConfig,
        specSynergyActive [("card1", 2), ("card2", 1)] s = true ↔
          ∀ c ∈ s.cards, 1 ≤ allocLookup [("card1", 2), ("card2", 1)] c)
    ∧ (∀ s : SynergyConfig, s.cards ≠ [] →
        jsMathMin
            (List.map (fun cardId => allocLookup [("card1", 2), ("card2", 1)] cardId)
              s.cards) ∈
            List.map (fun cardId => allocLookup [("card1", 2), ("card2", 1)] cardId) s.cards
          ∧ ∀ c ∈ s.cards,
              jsMathMin
                  (List.map (fun cardId => allocLookup [("card1", 2), ("card2", 1)] cardId)
                    s.cards) ≤
                allocLookup [("card1", 2), ("card2", 1)] c) :=
  c4_synergy_characterization initialMetrics [("card1", 2), ("card2", 1)] [sampleSynergy]

/-! ### The disaster evaluator (C5, C1) -/

theorem disasterStep_noop (r : ℤ) (a : Alloc) (scale : ℚ) (d : DisasterConfig)
    (hd : d.round ≠ r ∨ isMitigated d a = true) :
    ∀ st : GameMetrics × List DisasterEvent, disasterStep r a scale st d = st := by
  intro st
  unfold disasterStep
  rcases hd with h1 | h2
  · rw [if_pos h1]
  · by_cases h1 : d.round ≠ r
    · rw [if_pos h1]
    · rw [if_neg h1]
      by_cases h3 : d.threshold ≤ getMetric st.1 d.triggerMetric
      · rw [if_pos h3, if_pos h2]
      · rw [if_neg h3]

theorem foldl_filter_of_noop {σ β : Type} (step : β → σ → β) (keep : σ → Bool)
    (hnoop : ∀ x, keep x = false → ∀ st, step st x = st) :
    ∀ (l : List σ) (st : β), List.foldl step st l = List.foldl step st (l.filter keep) := by
  intro l
  induction l with
  | nil => intro st; rfl
  | cons x l ih =>
    intro st
    rw [List.foldl_cons]
    cases hx : keep x with
    | true =>
      rw [List.filter_cons_of_pos hx, List.foldl_cons]
      exact ih (step st x)
    | false =>
      rw [List.filter_cons_of_neg (by rw [hx]; exact Bool.false_ne_true), hnoop x hx st]
      exact ih st

/-- C5: a disaster rule triggers — its scaled penalty vector is applied and
its event is reported — exactly when its round equals the current round, the
trigger metric is at or above its threshold (equality triggers), and no card
of its `mitigatedBy` list has a positive allocation.  Rules whose round does
not match or that are mitigated are no-ops in any rule list: filtering them
out does not change the result at all. -/
theorem c5_disaster_characterization (m : GameMetrics) (r : ℤ) (a : Alloc) (scale : ℚ) :
    (∀ ds : List DisasterConfig,
        applyDisasterPenalties m r a ds scale =
          applyDisasterPenalties m r a
            (ds.filter (fun d => d.round == r && !(isMitigated d a))) scale)
    ∧ (∀ d : DisasterConfig,
        applyDisasterPenalties m r a [d] scale =
          if d.round = r ∧ d.threshold ≤ getMetric m d.triggerMetric ∧
              isMitigated d a = false then
            (applyPenaltyVector m d.penalties scale, [disasterEvent d r])
          else (m, [])) := by
  constructor
  · intro ds
    unfold applyDisasterPenalties
    exact foldl_filter_of_noop (disasterStep r a scale)
      (fun d => d.round == r && !(isMitigated d a))
      (fun d hd st => by
        apply disasterStep_noop r a scale d ?_ st
        rcases Bool.and_eq_false_iff.mp hd with h1 | h2
        · exact Or.inl (by
            intro heq
            rw [heq] at h1
            simp at h1)
        · exact Or.inr (by
            cases hmit : isMitigated d a with
            | true => rfl
            | false =>
              rw [hmit] at h2
              simp at h2))
      ds (m, [])
  · intro d
    show disasterStep r a scale (m, []) d = _
    unfold disasterStep
    by_cases h1 : d.round = r
    · rw [if_neg (by simp [h1])]
      by_cases h2 : d.threshold ≤ getMetric m d.triggerMetric
      · rw [if_pos h2]
        by_cases h3 : isMitigated d a
        · rw [if_pos h3, if_neg (by simp [h3])]
        · rw [if_neg h3,
            if_pos ⟨h1, h2, Bool.eq_false_iff.mpr h3⟩]
          rfl
      · rw [if_neg h2, if_neg (by tauto)]
    · rw [if_pos (by simp [h1]), if_neg (by tauto)]

/-! ### C1: disasters are evaluated sequentially, not against a snapshot -/

/-- Metrics with every dimension at 50, a concrete input for the C1
counterexample. -/
def metricsAll50 : GameMetrics :=
  { visibility_insight := 50, efficiency_throughput := 50, sustainability_emissions := 50,
    early_warning_prevention := 50, complexity_risk := 50 }

/-- A round-1 disaster rule triggering at visibility ≥ 50 whose penalty drops
visibility by 20. -/
def dcFirst : DisasterConfig :=
  { id := "dA", round := 1, triggerMetric := MetricKey.visibility_insight, threshold := 50,
    penalties := { visibility_insight := some (-20) }, copyKey := "disasters.dA",
    mitigatedBy := none }

/-- A round-1 disaster rule triggering at visibility ≥ 40 whose penalty drops
efficiency by 5. -/
def dcSecond : DisasterConfig :=
  { id := "dB", round := 1, triggerMetric := MetricKey.visibility_insight, threshold := 40,
    penalties := { efficiency_throughput := some (-5) }, copyKey := "disasters.dB",
    mitigatedBy := none }

/-- C1 counterexample: on the pre-disaster snapshot (visibility 50) the second
rule's trigger condition `metrics[triggerMetric] >= threshold` holds (50 ≥ 40),
its round matches and it is unmitigated, so under the claim it would fire and
its −5 efficiency penalty would accumulate.  The code, however, evaluates the
second rule against the metrics already penalised by the first rule
(visibility 30 < 40): only the first rule is reported and efficiency stays 50. -/
theorem c1_snapshot_counterexample :
    dcSecond.round = 1
    ∧ dcSecond.threshold ≤ getMetric metricsAll50 dcSecond.triggerMetric
    ∧ dcSecond.mitigatedBy = none
    ∧ ((applyDisasterPenalties metricsAll50 1 [] [dcFirst, dcSecond] 1).2.map
          (fun e => e.id)) = ["dA"]
    ∧ (applyDisasterPenalties metricsAll50 1 [] [dcFirst, dcSecond] 1).1.efficiency_throughput
        = 50 := by
  refine ⟨rfl, by norm_num [dcSecond, metricsAll50, getMetric], rfl, ?_, ?_⟩ <;>
  · simp [applyDisasterPenalties, disasterStep, disasterEvent, isMitigated,
      applyPenaltyVector, addOptPenalty, getMetric, allocLookup, metricsAll50, dcFirst,
      dcSecond]
    norm_num

/-- Folding the scaled penalty vectors of a list of disaster events onto a
metrics value. -/
def foldPenaltyVectors (base : GameMetrics) (evs : List DisasterEvent) (scale : ℚ) :
    GameMetrics :=
  List.foldl (fun mm e => applyPenaltyVector mm e.penalties scale) base evs

theorem applyDisasterPenalties_invariant (r : ℤ) (a : Alloc) (scale : ℚ)
    (base : GameMetrics) :
    ∀ (ds : List DisasterConfig) (st : GameMetrics × List DisasterEvent),
      st.1 = foldPenaltyVectors base st.2 scale →
      (List.foldl (disasterStep r a scale) st ds).1 =
        foldPenaltyVectors base (List.foldl (disasterStep r a scale) st ds).2 scale := by
  intro ds
  induction ds with
  | nil => intro st h; exact h
  | cons d ds ih =>
    intro st h
    rw [List.foldl_cons]
    apply ih
    unfold disasterStep
    by_cases h1 : d.round ≠ r
    · rw [if_pos h1]
      exact h
    · rw [if_neg h1]
      by_cases h2 : d.threshold ≤ getMetric st.1 d.triggerMetric
      · rw [if_pos h2]
        by_cases h3 : isMitigated d a
        · rw [if_pos h3]
          exact h
        · rw [if_neg h3]
          show applyPenaltyVector st.1 d.penalties scale =
            foldPenaltyVectors base (st.2 ++ [disasterEvent d r]) scale
          have hfold : foldPenaltyVectors base (st.2 ++ [disasterEvent d r]) scale =
              applyPenaltyVector (foldPenaltyVectors base st.2 scale)
                (disasterEvent d r).penalties scale := by
            unfold foldPenaltyVectors
            rw [List.foldl_append, List.foldl_cons, List.foldl_nil]
          rw [hfold, ← h]
          rfl
      · rw [if_neg h2]
        exact h

/-- C1 amended: when several rules scoped to the current round trigger in one
call, the rules are evaluated *sequentially* — splitting the rule list
anywhere, the suffix is evaluated starting from the metrics already penalised
by the prefix (so a later rule's trigger reads earlier rules' penalties, not
the pre-disaster snapshot) — and the penalty vectors accumulate additively:
the returned metrics equal the input metrics with the scaled penalty vectors
of exactly the triggered rules folded on. -/
theorem c1_sequential_accumulation (base : GameMetrics) (r : ℤ) (a : Alloc) (scale : ℚ) :
    (∀ l1 l2 : List DisasterConfig,
        applyDisasterPenalties base r a (l1 ++ l2) scale =
          ((applyDisasterPenalties (applyDisasterPenalties base r a l1 scale).1 r a l2
              scale).1,
            (applyDisasterPenalties base r a l1 scale).2 ++
              (applyDisasterPenalties (applyDisasterPenalties base r a l1 scale).1 r a l2
                scale).2))
    ∧ (∀ ds : List DisasterConfig,
        (applyDisasterPenalties base r a ds scale).1 =
          foldPenaltyVectors base (applyDisasterPenalties base r a ds scale).2 scale) := by
  constructor
  · intro l1 l2
    unfold applyDisasterPenalties
    rw [List.foldl_append]
    have hpair : List.foldl (disasterStep r a scale) (base, []) l1 =
        ((List.foldl (disasterStep r a scale) (base, []) l1).1,
          (List.foldl (disasterStep r a scale) (base, []) l1).2) := rfl
    rw [hpair,
      foldl_events_acc (disasterStep r a scale) (disasterStep_acc r a scale) l2
        (List.foldl (disasterStep r a scale) (base, []) l1).1
        (List.foldl (disasterStep r a scale) (base, []) l1).2]
  · intro ds
    exact applyDisasterPenalties_invariant r a scale base ds (base, []) rfl

end IotSprint
